import Mathlib

/-!
Verification development for the population-forecast engine
(`prepare_country_context` in `app.py`).

The numerical pipeline is shallowly embedded over `ℝ` (the exact-arithmetic
idealization of the Python float code); the control flow (default-country
substitution, first-row lookup, checkpoint filtering, empty-table fallback)
is translated line by line.  Python exceptions that the source can raise
(a missing row in the lookup) are modelled with `Option`.
-/

namespace PopForecast

noncomputable section

/-- `DEFAULT_COUNTRY = "Indonesia"` (app.py line 12). -/
def defaultCountry : String := "Indonesia"

/-- `years = np.array([1970, 1980, 1990, 2000, 2010, 2015, 2020, 2022])` (line 34). -/
def histYears : List ℤ := [1970, 1980, 1990, 2000, 2010, 2015, 2020, 2022]

/-- `years[0]`, the reference year of the regression and of both projections. -/
def refYear : ℤ := histYears.getD 0 0

/-- `np.arange(a, b)`: the integers `a, a+1, ..., b-1`. -/
def arange (a b : ℤ) : List ℤ := (List.range (b - a).toNat).map (fun (i : ℕ) => a + (i : ℤ))

/-- `future_years = np.arange(2022, 2072)` (line 41). -/
def futureYears : List ℤ := arange 2022 2072

/-- `forecast_points = [2030, 2040, 2050, 2060, 2071]` (line 62). -/
def forecastPoints : List ℤ := [2030, 2040, 2050, 2060, 2071]

/-- One row of the CSV data source: the country name, the 8 numeric
population columns (`numeric_columns`, lines 17-26: 1970, 1980, 1990, 2000,
2010, 2015, 2020, 2022), and the static attributes used by `stats`. -/
structure Row where
  name : String
  pops : Fin 8 → ℝ
  rank : ℤ
  capital : String
  continent : String
  area : ℝ
  density : ℝ
  growthRateAttr : ℝ
  worldSharePct : ℝ

/-- `pop = data[numeric_columns].to_numpy(dtype=float)` (line 35): the 8
population values as a list, in column order. -/
def popsList (row : Row) : List ℝ := (List.finRange 8).map row.pops

/-- Python `int(x)` on a float: truncation toward zero. -/
def intTrunc (x : ℝ) : ℤ := if 0 ≤ x then ⌊x⌋ else ⌈x⌉

/-- Digit grouping for the `,` format spec: the input is the digit string in
reverse order; a comma is inserted after every three digits. -/
def commaChunks : List Char → List Char
  | a :: b :: c :: d :: rest => a :: b :: c :: ',' :: commaChunks (d :: rest)
  | l => l

/-- Python `f"{n:,}"` on an integer: sign, then digits grouped by thousands. -/
def addCommas (n : ℤ) : String :=
  let ds := (toString n.natAbs).toList
  (if n < 0 then "-" else "") ++ String.mk (commaChunks ds.reverse).reverse

/-- Python `f"{int(x):,}"` (lines 73-74, 79-80, 100): truncate toward zero,
then insert thousands separators. -/
def fmtPop (x : ℝ) : String := addCommas (intTrunc x)

/-- Round to the nearest integer, ties to even (the rounding of Python fixed
-point formatting, idealized over exact reals). -/
def roundHalfEven (x : ℝ) : ℤ :=
  if x - ⌊x⌋ < 1 / 2 then ⌊x⌋
  else if 1 / 2 < x - ⌊x⌋ then ⌊x⌋ + 1
  else if Even ⌊x⌋ then ⌊x⌋ else ⌊x⌋ + 1

/-- Left-pad a digit string with zeros to width `d`. -/
def padZeros (d : ℕ) (s : String) : String :=
  String.mk (List.replicate (d - s.length) '0') ++ s

/-- Python `f"{x:.df}"` fixed-point formatting (lines 94-96, 106), idealized
over exact reals with round-half-even. -/
def decFmt (d : ℕ) (x : ℝ) : String :=
  let m := roundHalfEven (x * (10 : ℝ) ^ d)
  let sign := if m < 0 then "-" else ""
  let a := m.natAbs
  if d = 0 then sign ++ toString a
  else sign ++ toString (a / 10 ^ d) ++ "." ++ padZeros d (toString (a % 10 ^ d))

/-- The slope returned by `np.polyfit(ts, ys, 1)[0]`: the closed-form
ordinary-least-squares slope of the degree-1 fit,
`(N·Σ(t·y) − Σt·Σy) / (N·Σ(t²) − (Σt)²)`. -/
def polyfitSlope (ts ys : List ℝ) : ℝ :=
  ((ts.length : ℝ) * (List.zipWith (fun a b => a * b) ts ys).sum - ts.sum * ys.sum) /
    ((ts.length : ℝ) * (ts.map (fun a => a * a)).sum - ts.sum * ts.sum)

/-- `r = float(np.polyfit(t, np.log(pop), 1)[0])` (line 39): the OLS slope of
the degree-1 fit of `(t_i, ln pop_i)`. -/
def fitGrowthRate (ts ps : List ℝ) : ℝ := polyfitSlope ts (ps.map Real.log)

/-- `t = years - years[0]` (line 37), as floats. -/
def tHist : List ℝ := histYears.map (fun y => ((y - refYear : ℤ) : ℝ))

/-- `p0 = pop[0]` (line 38). -/
def p0Of (row : Row) : ℝ := row.pops 0

/-- The fitted growth rate of one country's series (line 39). -/
def rOf (row : Row) : ℝ := fitGrowthRate tHist (popsList row)

/-- `pop_future_exp = p0 * np.exp(r * t_future)` with
`t_future = future_years - years[0]` (lines 42-43). -/
def popExpOf (row : Row) : List ℝ :=
  futureYears.map (fun y => p0Of row * Real.exp (rOf row * ((y - refYear : ℤ) : ℝ)))

/-- `arr.max()` of a nonempty numpy array (the 8-column series is never
empty; the `[]` case is unreachable junk). -/
def listMax : List ℝ → ℝ
  | [] => 0
  | h :: t => t.foldl max h

/-- `k = pop.max() * 3` (line 45). -/
def kOf (row : Row) : ℝ := listMax (popsList row) * 3

/-- One body of the loop at lines 49-50: `dp = r*p*(1 - p/k); p += dp`. -/
def eulerStep (r k p : ℝ) : ℝ := p + r * p * (1 - p / k)

/-- The loop `for _ in future_years: dp = ...; p += dp; pop_log.append(p)`
(lines 46-51): one Euler step per element of the year list, appending the
updated value each time. -/
def logisticLoop (r k : ℝ) : ℝ → List ℤ → List ℝ
  | _, [] => []
  | p, _ :: ys => eulerStep r k p :: logisticLoop r k (eulerStep r k p) ys

/-- `pop_log` for one country: start from `p = pop[-1]` (line 47). -/
def popLogOf (row : Row) : List ℝ :=
  logisticLoop (rOf row) (kOf row) (row.pops 7) futureYears

/-- One row of `forecast_table` (lines 70-76): the checkpoint year and the
two formatted model values. -/
structure FRow where
  year : ℤ
  exp : String
  log : String

/-- The loop at lines 64-76: for each checkpoint year, skip it when
`year < future_years[0]` or when `idx = year - future_years[0]` is at least
`len(future_years)`; otherwise emit the formatted pair at offset `idx`. -/
def buildForecastTable (fy : List ℤ) (es ls : List ℝ) : List ℤ → List FRow
  | [] => []
  | y :: pts =>
    if y < fy.getD 0 0 then buildForecastTable fy es ls pts
    else if fy.length ≤ (y - fy.getD 0 0).toNat then buildForecastTable fy es ls pts
    else { year := y,
           exp := fmtPop (es.getD (y - fy.getD 0 0).toNat 0),
           log := fmtPop (ls.getD (y - fy.getD 0 0).toNat 0) }
      :: buildForecastTable fy es ls pts

/-- `forecast_table` for one country (lines 62-76). -/
def forecastTableOf (row : Row) : List FRow :=
  buildForecastTable futureYears (popExpOf row) (popLogOf row) forecastPoints

/-- `final_year = forecast_table[-1]["year"] if forecast_table else future_years[-1]` (line 78). -/
def finalYearOf (t : List FRow) (fy : List ℤ) : ℤ :=
  match t.getLast? with
  | some r => r.year
  | none => fy.getLastD 0

/-- `final_exp = forecast_table[-1]["exp"] if forecast_table else f"{int(pop_future_exp[-1]):,}"` (line 79). -/
def finalExpOf (t : List FRow) (es : List ℝ) : String :=
  match t.getLast? with
  | some r => r.exp
  | none => fmtPop (es.getLastD 0)

/-- `final_log = forecast_table[-1]["log"] if forecast_table else f"{int(pop_log[-1]):,}"` (line 80). -/
def finalLogOf (t : List FRow) (ls : List ℝ) : String :=
  match t.getLast? with
  | some r => r.log
  | none => fmtPop (ls.getLastD 0)

/-- The fixed sentence template of `forecast_summary` (lines 82-87). -/
def summaryTemplate (y : ℤ) (e l : String) : String :=
  "Dalam horizon 50 tahun hingga " ++ toString y ++
    ", model eksponensial memproyeksikan populasi mencapai sekitar " ++ e ++
    " jiwa, sedangkan model logistic yang mempertimbangkan kapasitas lingkungan memperkirakan sekitar " ++
    l ++ " jiwa. Perbedaan ini membantu membaca skenario optimistis versus realistis untuk setiap negara."

/-- `forecast_summary` assembled from the final checkpoint row, or from the
last raw forecast points when the table is empty (lines 78-87). -/
def summaryOf (t : List FRow) (fy : List ℤ) (es ls : List ℝ) : String :=
  summaryTemplate (finalYearOf t fy) (finalExpOf t es) (finalLogOf t ls)

/-- The `stats` mapping (lines 89-97). -/
structure Stats where
  rank : ℤ
  capital : String
  continent : String
  area : String
  density : String
  growthRate : String
  worldShare : String

/-- Lines 89-97. -/
def statsOf (row : Row) : Stats :=
  { rank := row.rank
    capital := row.capital
    continent := row.continent
    area := addCommas (intTrunc row.area) ++ " km²"
    density := decFmt 2 row.density ++ " people/km²"
    growthRate := decFmt 4 row.growthRateAttr
    worldShare := decFmt 2 row.worldSharePct ++ "%" }

/-- The arguments handed to `build_chart` (lines 53-60); the renderer itself
is an external black box per the specification. -/
structure ChartInput where
  years : List ℤ
  pop : List ℝ
  futureYears : List ℤ
  popExp : List ℝ
  popLog : List ℝ
  country : String

/-- `population_history = [(year, f"{int(value):,}") for year, value in
zip(years[::-1], pop[::-1])]` (lines 99-101). -/
def populationHistoryOf (row : Row) : List (ℤ × String) :=
  (histYears.reverse.zip (popsList row).reverse).map (fun yv => (yv.1, fmtPop yv.2))

/-- The dictionary returned by `prepare_country_context` (lines 103-111). -/
structure Context where
  country : String
  stats : Stats
  growthRate : String
  chart : ChartInput
  populationHistory : List (ℤ × String)
  forecastTable : List FRow
  forecastSummary : String

/-- The body of `prepare_country_context` applied to the selected row. -/
def prepareFromRow (name : String) (row : Row) : Context :=
  { country := name
    stats := statsOf row
    growthRate := decFmt 4 (rOf row)
    chart := { years := histYears, pop := popsList row, futureYears := futureYears,
               popExp := popExpOf row, popLog := popLogOf row, country := name }
    populationHistory := populationHistoryOf row
    forecastTable := forecastTableOf row
    forecastSummary := summaryOf (forecastTableOf row) futureYears (popExpOf row) (popLogOf row) }

/-- `prepare_country_context` (lines 29-111): substitute the default country
when the name is unknown (lines 30-31), then take the first matching row
(line 33; `none` models the `IndexError` when even the default is absent)
and compute the context from it. -/
def prepare (db : List Row) (name0 : String) : Option Context :=
  let name := if (db.map Row.name).contains name0 then name0 else defaultCountry
  (db.find? (fun r => r.name == name)).map (prepareFromRow name)

/-- A concrete row used to instantiate universally quantified theorems. -/
def sampleRow : Row :=
  { name := "Indonesia", pops := fun i => (i : ℝ) + 1, rank := 1, capital := "Jakarta",
    continent := "Asia", area := 1, density := 1, growthRateAttr := 1, worldSharePct := 1 }

/-! ### Helper lemmas about `arange` and list access -/

theorem arange_length (a b : ℤ) : (arange a b).length = (b - a).toNat := by
  rw [arange, List.length_map, List.length_range]

theorem arange_getD (a b : ℤ) (i : ℕ) (hi : i < (b - a).toNat) :
    (arange a b).getD i 0 = a + (i : ℤ) := by
  have hlen : i < (arange a b).length := by simpa [arange_length] using hi
  rw [List.getD_eq_getElem _ _ hlen]
  simp only [arange, List.getElem_map, List.getElem_range]

theorem futureYears_length : futureYears.length = 50 := by
  rw [futureYears, arange_length]
  decide

theorem futureYears_getD (i : ℕ) (hi : i < 50) : futureYears.getD i 0 = 2022 + (i : ℤ) := by
  rw [futureYears, arange_getD]
  omega

/-- C4: the exponential forecast series has one value per year 2022..2071
(50 of them), and the value at offset `i` is
`p0 * exp(r * (year - referenceYear))` with `referenceYear = 1970`, the first
historical year — `t` counts from the original series start. -/
theorem exp_series_formula (row : Row) :
    (popExpOf row).length = 50 ∧
    refYear = 1970 ∧
    futureYears.getD 0 0 = 2022 ∧ futureYears.getLastD 0 = 2071 ∧
    ∀ i : ℕ, i < 50 →
      (popExpOf row).getD i 0 =
        p0Of row * Real.exp (rOf row * (((2022 + (i : ℤ)) - 1970 : ℤ) : ℝ)) := by
  refine ⟨by simp [popExpOf, futureYears_length], by decide, by decide, by decide, ?_⟩
  intro i hi
  have hlen : i < (popExpOf row).length := by
    simpa [popExpOf, futureYears_length] using hi
  have hfy : i < futureYears.length := by simpa [futureYears_length] using hi
  rw [List.getD_eq_getElem _ _ hlen]
  have : (popExpOf row)[i] =
      p0Of row * Real.exp (rOf row * ((futureYears[i] - refYear : ℤ) : ℝ)) := by
    simp [popExpOf]
  rw [this]
  have hy : futureYears[i] = 2022 + (i : ℤ) := by
    rw [← List.getD_eq_getElem _ 0 hfy]
    exact futureYears_getD i hi
  rw [hy]
  norm_num [refYear, histYears]

/-- Witness for `exp_series_formula` at a concrete row and offset. -/
theorem exp_series_formula_witness :
    0 < 50 ∧
    (popExpOf sampleRow).getD 0 0 =
      p0Of sampleRow * Real.exp (rOf sampleRow * (((2022 + (0 : ℤ)) - 1970 : ℤ) : ℝ)) :=
  ⟨by decide, (exp_series_formula sampleRow).2.2.2.2 0 (by decide)⟩

/-! ### The logistic loop -/

theorem logisticLoop_length (r k p : ℝ) (ys : List ℤ) :
    (logisticLoop r k p ys).length = ys.length := by
  induction ys generalizing p with
  | nil => rfl
  | cons y ys ih => simp [logisticLoop, ih]

theorem logisticLoop_getD (r k : ℝ) (ys : List ℤ) :
    ∀ (p : ℝ) (i : ℕ), i < ys.length →
      (logisticLoop r k p ys).getD i 0 = (eulerStep r k)^[i + 1] p := by
  induction ys with
  | nil => intro p i hi; simp at hi
  | cons y ys ih =>
    intro p i hi
    cases i with
    | zero => simp [logisticLoop]
    | succ n =>
      have hn : n < ys.length := by simpa using hi
      simp only [logisticLoop, List.getD_cons_succ]
      rw [ih (eulerStep r k p) n hn, ← Function.iterate_succ_apply]

/-- C3: the logistic forecast series has exactly one value per future year
(50 of them, the first for start year 2022), and the value at offset `i` is
the `(i+1)`-fold forward-Euler step `p ← p + r*p*(1-p/k)` from the last
historical population — each value is appended after the update, so the
first emitted value is already one step ahead of the start value. -/
theorem logistic_series_shape (r k p : ℝ) (ys : List ℤ) :
    (logisticLoop r k p ys).length = ys.length ∧
    futureYears.length = 50 ∧
    futureYears.getD 0 0 = 2022 ∧
    (∀ q : ℝ, eulerStep r k q = q + r * q * (1 - q / k)) ∧
    (∀ row : Row, popLogOf row = logisticLoop (rOf row) (kOf row) (row.pops 7) futureYears) ∧
    ∀ i : ℕ, i < ys.length →
      (logisticLoop r k p ys).getD i 0 = (eulerStep r k)^[i + 1] p :=
  ⟨logisticLoop_length r k p ys, futureYears_length, by decide, fun q => rfl, fun row => rfl,
    logisticLoop_getD r k ys p⟩

/-- Witness for `logistic_series_shape` at a concrete state and offset. -/
theorem logistic_series_shape_witness :
    0 < ([0] : List ℤ).length ∧
    (logisticLoop 1 1 1 [0]).getD 0 0 = (eulerStep 1 1)^[0 + 1] 1 :=
  ⟨by decide, (logistic_series_shape 1 1 1 [0]).2.2.2.2.2 0 (by decide)⟩

/-- C7: the carrying capacity used by the logistic forecast is exactly three
times the maximum observed population of the series, and equals 2400 for the
series [100, 200, 400, 800]. -/
theorem carrying_capacity (row : Row) :
    kOf row = 3 * listMax (popsList row) ∧
    popLogOf row = logisticLoop (rOf row) (kOf row) (row.pops 7) futureYears ∧
    listMax [(100 : ℝ), 200, 400, 800] * 3 = 2400 := by
  refine ⟨by rw [kOf]; ring, rfl, ?_⟩
  have h1 : max (100 : ℝ) 200 = 200 := max_eq_right (by norm_num)
  have h2 : max (200 : ℝ) 400 = 400 := max_eq_right (by norm_num)
  have h3 : max (400 : ℝ) 800 = 800 := max_eq_right (by norm_num)
  simp only [listMax, List.foldl, h1, h2, h3]
  norm_num

/-! ### The summary fallback -/

/-- C9: when the checkpoint table is empty the summary falls back to the
final raw forecast point (last horizon year, last exponential and logistic
values); otherwise it cites the final row of the checkpoint table. -/
theorem summary_fallback (t : List FRow) (fy : List ℤ) (es ls : List ℝ) :
    (t = [] → summaryOf t fy es ls =
      summaryTemplate (fy.getLastD 0) (fmtPop (es.getLastD 0)) (fmtPop (ls.getLastD 0))) ∧
    ∀ h : t ≠ [], summaryOf t fy es ls =
      summaryTemplate (t.getLast h).year (t.getLast h).exp (t.getLast h).log := by
  constructor
  · rintro rfl
    rfl
  · intro h
    rw [summaryOf, finalYearOf, finalExpOf, finalLogOf,
      List.getLast?_eq_getLast_of_ne_nil h]

/-- Witness for `summary_fallback`: a degenerate horizon with an empty
checkpoint table falls back to the last raw point. -/
theorem summary_fallback_witness :
    (([] : List FRow) = []) ∧
    summaryOf [] [2025] [(1 : ℝ)] [(2 : ℝ)] =
      summaryTemplate (([2025] : List ℤ).getLastD 0) (fmtPop (([(1 : ℝ)]).getLastD 0))
        (fmtPop (([(2 : ℝ)]).getLastD 0)) :=
  ⟨rfl, (summary_fallback [] [2025] [1] [2]).1 rfl⟩

/-! ### The checkpoint table -/

/-- On a horizon `arange s (s+n)` the table loop keeps exactly the
checkpoints inside `[s, s+n-1]`, in order, pairing each with the two model
values at its offset. -/
theorem buildTable_eq (s : ℤ) (n : ℕ) (fy : List ℤ) (hhead : fy.getD 0 0 = s)
    (hlen : fy.length = n) (es ls : List ℝ) (pts : List ℤ) :
    buildForecastTable fy es ls pts =
      (pts.filter (fun y => decide (s ≤ y) && decide (y ≤ s + (n : ℤ) - 1))).map
        (fun y => { year := y, exp := fmtPop (es.getD (y - s).toNat 0),
                    log := fmtPop (ls.getD (y - s).toNat 0) }) := by
  induction pts with
  | nil => rfl
  | cons y pts ih =>
    simp only [buildForecastTable, hhead, hlen, List.filter_cons]
    by_cases h1 : y < s
    · rw [if_pos h1, ih]
      have hns : ¬ s ≤ y := by omega
      simp [hns]
    · rw [if_neg h1]
      by_cases h2 : n ≤ (y - s).toNat
      · rw [if_pos h2, ih]
        have hout : ¬ y ≤ s + (n : ℤ) - 1 := by omega
        simp [hout]
      · rw [if_neg h2, ih]
        have ha : s ≤ y := by omega
        have hb : y ≤ s + (n : ℤ) - 1 := by omega
        simp [ha, hb]

/-- C5: the forecast table consists of exactly the checkpoint years from
{2030, 2040, 2050, 2060, 2071} inside `[startYear, startYear + horizon - 1]`,
in ascending order, each paired with the two model values at its offset
(years outside the horizon being skipped with no error); the `forecast_table`
of every country is this table at start year 2022 and horizon 50. -/
theorem checkpoint_table (s : ℤ) (n : ℕ) (hn : 0 < n) (es ls : List ℝ) :
    buildForecastTable (arange s (s + (n : ℤ))) es ls forecastPoints =
      (forecastPoints.filter (fun y => decide (s ≤ y) && decide (y ≤ s + (n : ℤ) - 1))).map
        (fun y => { year := y, exp := fmtPop (es.getD (y - s).toNat 0),
                    log := fmtPop (ls.getD (y - s).toNat 0) }) ∧
    ((buildForecastTable (arange s (s + (n : ℤ))) es ls forecastPoints).map
      FRow.year).Pairwise (· < ·) ∧
    ∀ row : Row, forecastTableOf row =
      buildForecastTable (arange 2022 (2022 + (50 : ℤ))) (popExpOf row) (popLogOf row)
        forecastPoints := by
  have hhead : (arange s (s + (n : ℤ))).getD 0 0 = s := by
    have h0 : 0 < ((s + (n : ℤ)) - s).toNat := by omega
    have := arange_getD s (s + (n : ℤ)) 0 h0
    simpa using this
  have hlen : (arange s (s + (n : ℤ))).length = n := by
    rw [arange_length]; omega
  have htab := buildTable_eq s n _ hhead hlen es ls forecastPoints
  refine ⟨htab, ?_, ?_⟩
  · rw [htab, List.map_map, List.pairwise_map]
    refine List.Pairwise.filter _ ?_
    have hp : forecastPoints.Pairwise (fun a b : ℤ => a < b) := by decide
    exact hp
  · intro row
    have : futureYears = arange 2022 (2022 + (50 : ℤ)) := by decide
    rw [forecastTableOf, this]

/-- Witness for `checkpoint_table`: with the horizon [2022, 2071] all five
checkpoints survive the filter. -/
theorem checkpoint_table_witness :
    0 < 50 ∧
    (buildForecastTable (arange 2022 (2022 + (50 : ℤ))) [] [] forecastPoints =
      (forecastPoints.filter
          (fun y => decide ((2022 : ℤ) ≤ y) && decide (y ≤ 2022 + (50 : ℤ) - 1))).map
        (fun y => { year := y, exp := fmtPop (([] : List ℝ).getD (y - 2022).toNat 0),
                    log := fmtPop (([] : List ℝ).getD (y - 2022).toNat 0) })) ∧
    (forecastPoints.filter
        (fun y => decide ((2022 : ℤ) ≤ y) && decide (y ≤ 2022 + (50 : ℤ) - 1))) =
      forecastPoints :=
  ⟨by decide, (checkpoint_table 2022 50 (by decide) [] []).1, by decide⟩

/-! ### Unknown-country substitution -/

/-- C6: a country name absent from the data source is silently replaced by
the configured default country; the resulting context (every field,
including the reported country name) is the one obtained by requesting the
default country directly, and no error case is hit that would not equally be
hit for the default country. -/
theorem unknown_country_default (db : List Row) (name0 : String)
    (h : ¬ name0 ∈ db.map Row.name) :
    prepare db name0 = prepare db defaultCountry := by
  have hc : (db.map Row.name).contains name0 = false := by simpa using h
  unfold prepare
  rw [hc]
  simp

/-- Witness for `unknown_country_default` at a one-row database. -/
theorem unknown_country_default_witness :
    (¬ "Nonexistent" ∈ [sampleRow].map Row.name) ∧
    prepare [sampleRow] "Nonexistent" = prepare [sampleRow] defaultCountry :=
  ⟨by simp [sampleRow], unknown_country_default [sampleRow] "Nonexistent" (by simp [sampleRow])⟩

/-! ### Ordinary-least-squares recovery -/

theorem zipWith_mul_self_map (f : ℝ → ℝ) (ts : List ℝ) :
    List.zipWith (fun a b => a * b) ts (ts.map f) = ts.map (fun t => t * f t) := by
  induction ts with
  | nil => rfl
  | cons t ts ih => simp [ih]

theorem sum_map_affine (a b : ℝ) (ts : List ℝ) :
    (ts.map (fun t => a + b * t)).sum = a * ts.length + b * ts.sum := by
  induction ts with
  | nil => simp
  | cons t ts ih =>
    simp only [List.map_cons, List.sum_cons, ih, List.length_cons]
    push_cast
    ring

theorem sum_map_mul_affine (a b : ℝ) (ts : List ℝ) :
    (ts.map (fun t => t * (a + b * t))).sum =
      a * ts.sum + b * (ts.map (fun t => t * t)).sum := by
  induction ts with
  | nil => simp
  | cons t ts ih =>
    simp only [List.map_cons, List.sum_cons, ih]
    ring

/-- C2: the fitted growth rate is the OLS slope of the degree-1 fit of
`(t_i, ln p_i)`; consequently on any series exactly of the form
`p_i = p0 * exp(r0 * t_i)` with `p0 > 0` (and a nondegenerate time vector)
the fit recovers `r0` exactly. -/
theorem growth_rate_recovery :
    (∀ row : Row, rOf row = polyfitSlope tHist ((popsList row).map Real.log)) ∧
    ∀ (ts : List ℝ) (p0 r0 : ℝ), 0 < p0 →
      (ts.length : ℝ) * (ts.map (fun t => t * t)).sum - ts.sum * ts.sum ≠ 0 →
      fitGrowthRate ts (ts.map (fun t => p0 * Real.exp (r0 * t))) = r0 := by
  refine ⟨fun row => rfl, ?_⟩
  intro ts p0 r0 hp hd
  rw [fitGrowthRate, List.map_map]
  have hfun : (Real.log ∘ fun t => p0 * Real.exp (r0 * t)) =
      fun t => Real.log p0 + r0 * t := by
    funext t
    simp [Function.comp, Real.log_mul (ne_of_gt hp) (Real.exp_ne_zero _), Real.log_exp]
  rw [hfun, polyfitSlope, div_eq_iff hd]
  simp only [zipWith_mul_self_map, sum_map_mul_affine, sum_map_affine]
  ring

/-- Witness for `growth_rate_recovery`: populations [100, 200, 400, 800] at
times [0, 10, 20, 30] fit to exactly `ln 2 / 10`. -/
theorem growth_rate_recovery_witness :
    (0 : ℝ) < 100 ∧
    ((([0, 10, 20, 30] : List ℝ).length : ℝ) *
        (([0, 10, 20, 30] : List ℝ).map (fun t => t * t)).sum -
        ([0, 10, 20, 30] : List ℝ).sum * ([0, 10, 20, 30] : List ℝ).sum ≠ 0) ∧
    (([0, 10, 20, 30] : List ℝ).map (fun t => 100 * Real.exp (Real.log 2 / 10 * t))) =
      [100, 200, 400, 800] ∧
    fitGrowthRate [0, 10, 20, 30]
        (([0, 10, 20, 30] : List ℝ).map (fun t => 100 * Real.exp (Real.log 2 / 10 * t))) =
      Real.log 2 / 10 := by
  have h1 : (0 : ℝ) < 100 := by norm_num
  have h2 : ((([0, 10, 20, 30] : List ℝ).length : ℝ) *
      (([0, 10, 20, 30] : List ℝ).map (fun t => t * t)).sum -
      ([0, 10, 20, 30] : List ℝ).sum * ([0, 10, 20, 30] : List ℝ).sum ≠ 0) := by
    norm_num
  have e1 : Real.exp (Real.log 2 / 10 * 10) = 2 := by
    have h : Real.log 2 / 10 * 10 = Real.log 2 := by ring
    rw [h, Real.exp_log two_pos]
  have e2 : Real.exp (Real.log 2 / 10 * 20) = 4 := by
    have h : Real.log 2 / 10 * 20 = Real.log 2 + Real.log 2 := by ring
    rw [h, Real.exp_add, Real.exp_log two_pos]
    norm_num
  have e3 : Real.exp (Real.log 2 / 10 * 30) = 8 := by
    have h : Real.log 2 / 10 * 30 = Real.log 2 + (Real.log 2 + Real.log 2) := by ring
    rw [h, Real.exp_add, Real.exp_add, Real.exp_log two_pos]
    norm_num
  refine ⟨h1, h2, ?_, growth_rate_recovery.2 [0, 10, 20, 30] 100 (Real.log 2 / 10) h1 h2⟩
  simp only [List.map_cons, List.map_nil, mul_zero, Real.exp_zero, mul_one, e1, e2, e3]
  norm_num

/-! ### The logistic invariant -/

theorem eulerStep_bounds (r k p : ℝ) (hr0 : 0 < r) (hr1 : r ≤ 1) (hp : 0 < p)
    (hpk : p ≤ k) :
    p ≤ eulerStep r k p ∧ 0 < eulerStep r k p ∧ eulerStep r k p ≤ k := by
  have hk : 0 < k := lt_of_lt_of_le hp hpk
  have hdivle : p / k ≤ 1 := (div_le_one hk).mpr hpk
  have hnn : 0 ≤ r * p * (1 - p / k) := by
    apply mul_nonneg (mul_nonneg hr0.le hp.le)
    linarith
  have hmono : p ≤ eulerStep r k p := by rw [eulerStep]; linarith
  refine ⟨hmono, lt_of_lt_of_le hp hmono, ?_⟩
  have hrp : r * p ≤ k := le_trans (by nlinarith) hpk
  have key : 1 - p / k = (k - p) / k := by field_simp
  rw [eulerStep, key, ← mul_div_assoc]
  have h2 : r * p * (k - p) / k ≤ k - p := by
    rw [div_le_iff₀ hk]
    nlinarith [mul_le_mul_of_nonneg_right hrp (sub_nonneg.mpr hpk)]
  linarith

/-- C8: for `0 < r ≤ 1` and a start `0 < p ≤ k`, the forward-Euler logistic
sequence is non-decreasing and every element stays within `(0, k]`: each
step preserves `0 < p ≤ k` and never decreases `p`. -/
theorem logistic_invariant (r k : ℝ) (hr0 : 0 < r) (hr1 : r ≤ 1) :
    ∀ (ys : List ℤ) (p : ℝ), 0 < p → p ≤ k →
      List.Chain' (· ≤ ·) (p :: logisticLoop r k p ys) ∧
      ∀ q ∈ logisticLoop r k p ys, 0 < q ∧ q ≤ k := by
  intro ys
  induction ys with
  | nil =>
    intro p hp hpk
    exact ⟨List.chain'_singleton p, by simp [logisticLoop]⟩
  | cons y ys ih =>
    intro p hp hpk
    obtain ⟨h1, h2, h3⟩ := eulerStep_bounds r k p hr0 hr1 hp hpk
    obtain ⟨ihc, ihm⟩ := ih (eulerStep r k p) h2 h3
    refine ⟨?_, ?_⟩
    · simp only [logisticLoop]
      exact List.chain'_cons.mpr ⟨h1, ihc⟩
    · intro q hq
      simp only [logisticLoop, List.mem_cons] at hq
      rcases hq with rfl | hq
      · exact ⟨h2, h3⟩
      · exact ihm q hq

/-- Witness for `logistic_invariant` at `r = 1`, `k = 2`, `p = 1`. -/
theorem logistic_invariant_witness :
    (0 : ℝ) < 1 ∧ (1 : ℝ) ≤ 1 ∧ (0 : ℝ) < 1 ∧ (1 : ℝ) ≤ 2 ∧
    (List.Chain' (· ≤ ·) ((1 : ℝ) :: logisticLoop 1 2 1 [0, 1]) ∧
      ∀ q ∈ logisticLoop 1 2 (1 : ℝ) [0, 1], 0 < q ∧ q ≤ 2) :=
  ⟨by norm_num, by norm_num, by norm_num, by norm_num,
    logistic_invariant 1 2 (by norm_num) (by norm_num) [0, 1] 1 (by norm_num) (by norm_num)⟩

/-! ### Display formatting -/

/-- C10: every formatted population figure (table entries, summary fallback
values, population history) goes through `fmtPop`, which truncates the float
toward zero to an integer before inserting thousands separators; for
nonnegative values the truncation is the floor, so the displayed integer
never overstates the value and understates it by less than one. -/
theorem formatted_truncation :
    (∀ x : ℝ, 0 ≤ x →
      intTrunc x = ⌊x⌋ ∧ (intTrunc x : ℝ) ≤ x ∧ x < (intTrunc x : ℝ) + 1) ∧
    (∀ x : ℝ, x < 0 → intTrunc x = ⌈x⌉) ∧
    (∀ x : ℝ, fmtPop x = addCommas (intTrunc x)) ∧
    (∀ row : Row, populationHistoryOf row =
      (histYears.reverse.zip (popsList row).reverse).map (fun yv => (yv.1, fmtPop yv.2))) ∧
    (∀ (t : List FRow) (ls : List ℝ), t = [] → finalLogOf t ls = fmtPop (ls.getLastD 0)) ∧
    ∀ (fy : List ℤ) (es ls : List ℝ) (pts : List ℤ) (fr : FRow),
      fr ∈ buildForecastTable fy es ls pts →
      fr.exp = fmtPop (es.getD (fr.year - fy.getD 0 0).toNat 0) ∧
      fr.log = fmtPop (ls.getD (fr.year - fy.getD 0 0).toNat 0) := by
  refine ⟨?_, ?_, fun x => rfl, fun row => rfl, ?_, ?_⟩
  · intro x hx
    rw [intTrunc, if_pos hx]
    refine ⟨rfl, Int.floor_le x, ?_⟩
    have := Int.lt_floor_add_one x
    linarith
  · intro x hx
    rw [intTrunc, if_neg (not_le.mpr hx)]
  · rintro t ls rfl
    rfl
  · intro fy es ls pts
    induction pts with
    | nil =>
      intro fr hfr
      simp [buildForecastTable] at hfr
    | cons y pts ih =>
      intro fr hfr
      rw [buildForecastTable] at hfr
      split_ifs at hfr with h1 h2
      · exact ih fr hfr
      · exact ih fr hfr
      · rcases List.mem_cons.mp hfr with rfl | hfr
        · exact ⟨rfl, rfl⟩
        · exact ih fr hfr

/-- Witness for `formatted_truncation` at `x = 7/2`: the displayed integer is
the floor, 3. -/
theorem formatted_truncation_witness :
    (0 : ℝ) ≤ 7 / 2 ∧
    (intTrunc (7 / 2) = ⌊(7 / 2 : ℝ)⌋ ∧
      (intTrunc (7 / 2 : ℝ) : ℝ) ≤ 7 / 2 ∧ (7 / 2 : ℝ) < (intTrunc (7 / 2 : ℝ) : ℝ) + 1) :=
  ⟨by norm_num, formatted_truncation.1 (7 / 2) (by norm_num)⟩

/-! ### Missing validation of non-positive populations -/

/-- A country row whose 1970 population is 0: mathematically the
log-regression is undefined there, and the specification demands a
`DataError`. -/
def zeroRow : Row :=
  { name := "Zeroland", pops := fun i => if i.val = 0 then 0 else 1, rank := 1,
    capital := "", continent := "", area := 1, density := 1, growthRateAttr := 1,
    worldSharePct := 1 }

/-- C1 (code bug): the engine performs no positivity validation and defines
no `DataError`; on a series containing a non-positive population it still
reaches the end of the pipeline and emits a complete five-row forecast
table — the logarithm is applied unchecked (in floats, `-inf`/NaN flow into
the regression; in this exact-arithmetic embedding the junk value
`log 0 = 0` does), and no error naming the country/year exists anywhere. -/
theorem no_dataerror_on_nonpositive :
    (0 : ℝ) ∈ popsList zeroRow ∧
    ∃ c : Context, prepare [zeroRow] "Zeroland" = some c ∧ c.forecastTable.length = 5 := by
  constructor
  · refine List.mem_map.mpr ⟨0, List.mem_finRange 0, ?_⟩
    simp [zeroRow]
  · refine ⟨prepareFromRow "Zeroland" zeroRow, ?_, ?_⟩
    · rfl
    · show (forecastTableOf zeroRow).length = 5
      have hfy : futureYears = arange 2022 (2022 + (50 : ℤ)) := by decide
      rw [forecastTableOf, hfy,
        buildTable_eq 2022 50 _ (by decide) (by decide) (popExpOf zeroRow) (popLogOf zeroRow),
        List.length_map]
      decide

end

end PopForecast
